import Mathlib

/-
Verification of the CurrentCircle peer-to-peer contact-exchange application.

This file is a shallow embedding, in Lean 4, of the parts of the source that
the specification talks about:

  * js/crypto.js   (the Crypto module: key generation, message encryption,
                    identity export/import, backup data),
  * js/connect.js  (the Connect module: QR scanning dispatch, the
                    offer/answer connection state machine, the data-exchange
                    send sequence),
  * js/ui.js       (the App module: connection records, message and relay
                    stores, inbound message/relay processing),
  * js/db.js       (the DB module: IndexedDB object stores keyed by id,
                    whose put operation replaces the record with the same
                    key or inserts a new one).

Modelling conventions, used throughout:

  * JavaScript strings are Lean String.  A field that JavaScript may leave
    undefined or empty is modelled as the empty string (both are falsy and
    the source only ever tests them with truthiness or the or-operator),
    or as Option where the source distinguishes null explicitly.
  * Timestamps are a calendar instant: a year plus an opaque remainder
    (month, day, time of day).  setFullYear(year + 1) increments the year
    and keeps the remainder.  The source reads the clock several times
    inside one synchronous operation; those reads are modelled as one
    instant, the operation's now parameter.
  * uuid.v4() is modelled by an explicit supply of fresh identifiers
    passed in as a parameter.
  * CryptoJS.AES with a string passphrase is an external symmetric cipher:
    decrypting under the passphrase the ciphertext was produced with
    returns the plaintext; decrypting under any other passphrase fails
    (CryptoJS either throws, which the source catches and turns into null,
    or yields garbage that is not the plaintext).  It is modelled as an
    idealised cipher: a ciphertext formally carries its passphrase and
    plaintext, and decryption compares passphrases, returning none for
    every failure mode.  JSON.stringify/JSON.parse of the flat Identity
    record (four string fields) form a bijection and are absorbed into the
    plaintext type of the cipher.
  * CryptoJS.SHA256 is an external hash; it is modelled as a formal tag
    constructor.  The only property of the model the proofs use is that
    the output string differs from the input string, which is true of the
    real hash as well (its output is 64 hex characters and no fixed point
    of SHA-256 is known).
  * IndexedDB object stores are lists of records; put with keyPath id is
    putKeyed below; get on the unique did index is find?.
  * The profile field named bio in the source is called bioText here
    (the source name collides with a reserved suffix in this development).
-/

namespace CC

/-- Calendar instant: a year together with the remainder of the date
(month, day, time of day), opaque to the code we model.  JavaScript
setFullYear(year + 1) increments the year and keeps the remainder. -/
structure Timestamp where
  year : Nat
  rest : Nat
deriving DecidableEq

/-- One calendar year later, as computed by expiresOn.setFullYear(expiresOn.getFullYear() + 1). -/
def Timestamp.plusOneYear (t : Timestamp) : Timestamp :=
  { year := t.year + 1, rest := t.rest }

/-! ## Crypto module (js/crypto.js) -/

/-- Salt for key derivation (crypto.js): const SALT = 'CurrentCircle_v1_'. -/
def SALT : String := "CurrentCircle_v1_"

/-- Model of the external CryptoJS.SHA256 primitive, an injective formal
tag.  The only fact the development uses about it is that its output
differs from its input string, which holds for the real hash (no fixed
point of SHA-256 is known, and the generated keys are random). -/
def SHA256 (s : String) : String := "SHA256(" ++ s ++ ")"

/-- Idealised ciphertext of the external CryptoJS.AES passphrase cipher:
it formally carries the passphrase it was produced under and the
plaintext.  Real ciphertexts determine both (given the passphrase), and
decryption under any other passphrase fails. -/
structure AESCipher (α : Type) where
  passphrase : String
  plain : α
deriving DecidableEq

/-- Model of CryptoJS.AES.encrypt(message, key).toString(). -/
def aesEncrypt {α : Type} (m : α) (key : String) : AESCipher α :=
  { passphrase := key, plain := m }

/-- Model of CryptoJS.AES.decrypt(c, key).toString(CryptoJS.enc.Utf8):
the plaintext under the matching passphrase, and a failure value under
any other (the real cipher throws, which every caller in the source
catches, or yields bytes that are not the plaintext; both failure modes
are none here). -/
def aesDecrypt {α : Type} (c : AESCipher α) (key : String) : Option α :=
  if c.passphrase = key then some c.plain else none

/-- Key pair, from crypto.js generateKeyPair: the private key is a random
32-byte value (the randomValue parameter stands for
CryptoJS.lib.WordArray.random(32).toString()) and the public key is its
SHA-256 hash. -/
structure KeyPair where
  publicKey : String
  privateKey : String
deriving DecidableEq

/-- crypto.js generateKeyPair, with the random draw made explicit. -/
def generateKeyPair (randomValue : String) : KeyPair :=
  { publicKey := SHA256 randomValue, privateKey := randomValue }

/-- crypto.js encryptMessage(message, key): AES encryption of the message
under the key string (the callers pass the recipient's public key). -/
def encryptMessage (message : String) (key : String) : AESCipher String :=
  aesEncrypt message key

/-- crypto.js decryptMessage(encryptedMessage, key): AES decryption under
the key string; returns null (none) when decryption fails, never
throwing past its boundary. -/
def decryptMessage (encryptedMessage : AESCipher String) (key : String) : Option String :=
  aesDecrypt encryptedMessage key

/-- Identity record (crypto.js createIdentity): did, key pair, creation
time, all strings. -/
structure Identity where
  did : String
  publicKey : String
  privateKey : String
  created : String
deriving DecidableEq

/-- crypto.js exportIdentity(identity, password): the identity is
JSON-serialised and AES-encrypted under SALT + password.  The JSON
round trip on this flat record of four strings is a bijection and is
absorbed into the plaintext type of the cipher. -/
def exportIdentity (identity : Identity) (password : String) : AESCipher Identity :=
  aesEncrypt identity (SALT ++ password)

/-- crypto.js importIdentity(encryptedIdentity, password): AES decryption
under SALT + password followed by JSON.parse; any failure (wrong
passphrase, garbage plaintext) is caught and becomes null (none). -/
def importIdentity (encryptedIdentity : AESCipher Identity) (password : String) :
    Option Identity :=
  aesDecrypt encryptedIdentity (SALT ++ password)

/-- Profile fields exchanged in payloads (first/last name, nickname, bio).
Absent and empty values coincide (both falsy in the source). -/
structure ProfileFields where
  firstName : String
  lastName : String
  nickname : String
  bioText : String
deriving DecidableEq

/-- The local user's profile record (App state.profile). -/
structure Profile where
  id : String
  firstName : String
  lastName : String
  nickname : String
  bioText : String
  profilePicture : Option String
  identity : Identity
deriving DecidableEq

/-- Plaintext of crypto.js createBackupData: essential profile fields,
the full identity, and the backup date. -/
structure BackupPayload where
  profileId : String
  firstName : String
  lastName : String
  nickname : String
  bioText : String
  identity : Identity
  backupDate : Timestamp
deriving DecidableEq

/-- crypto.js createBackupData(profile, identity): the backup package is
AES-encrypted under the user's own public key. -/
def createBackupData (profile : Profile) (identity : Identity) (now : Timestamp) :
    AESCipher BackupPayload :=
  aesEncrypt
    { profileId := profile.id
      firstName := profile.firstName
      lastName := profile.lastName
      nickname := profile.nickname
      bioText := profile.bioText
      identity := identity
      backupDate := now }
    identity.publicKey

/-! ### String helper lemmas -/

theorem string_append_right_injective (s a b : String) (h : s ++ a = s ++ b) : a = b := by
  cases a with
  | mk da =>
    cases b with
    | mk db =>
      cases s with
      | mk ds =>
        simp only [HAppend.hAppend, Append.append, String.append] at h
        have hdata : ds ++ da = ds ++ db := congrArg String.data h
        have := List.append_cancel_left hdata
        simp [this]

theorem SHA256_ne_self (s : String) : SHA256 s ≠ s := by
  intro h
  have hlen : (SHA256 s).length = s.length := congrArg String.length h
  simp only [SHA256] at hlen
  rw [String.length_append, String.length_append] at hlen
  have h7 : ("SHA256(" : String).length = 7 := rfl
  have h1 : (")" : String).length = 1 := rfl
  omega

/-! ## Claim C1 -/

/-- C1: the claim states that for every key pair from generateKeyPair,
encrypting a plaintext under the pair's public key and decrypting the
result under the matching private key yields the plaintext again.  On
the code this fails for every key pair and every message: encryptMessage
keys the symmetric AES cipher by the public-key string while
decryptMessage keys it by the private-key string, and the two strings
always differ (the public key is the SHA-256 hash of the private key),
so decryption returns the failure value null instead of the plaintext.
The second half of the claim (a wrong private key never yields the
plaintext and never throws past the item boundary) does hold.  This
theorem evaluates the code on the failing inputs: the first conjunct is
the general failure, the second exhibits it at a concrete input. -/
theorem decryptMessage_encryptMessage_keyPair_fails :
    (∀ (m randomValue : String),
      decryptMessage
        (encryptMessage m (generateKeyPair randomValue).publicKey)
        (generateKeyPair randomValue).privateKey = none)
    ∧ decryptMessage
        (encryptMessage "hello" (generateKeyPair "4f3c2a").publicKey)
        (generateKeyPair "4f3c2a").privateKey = none := by
  constructor
  · intro m randomValue
    simp only [decryptMessage, encryptMessage, aesEncrypt, aesDecrypt, generateKeyPair]
    rw [if_neg (SHA256_ne_self randomValue)]
  · rfl

/-! ## Claim C9 -/

/-- C9: importing an identity exported under passphrase p, using the same
passphrase, yields the original Identity object; importing under any
other passphrase fails cleanly with the failure value null (none)
rather than an unhandled exception.  Both encryption sides combine the
passphrase with the fixed namespacing salt SALT. -/
theorem importIdentity_exportIdentity_roundtrip (i : Identity) (p q : String) :
    importIdentity (exportIdentity i p) p = some i
    ∧ (q ≠ p → importIdentity (exportIdentity i p) q = none) := by
  constructor
  · simp [importIdentity, exportIdentity, aesEncrypt, aesDecrypt]
  · intro hne
    simp only [importIdentity, exportIdentity, aesEncrypt, aesDecrypt]
    rw [if_neg]
    intro h
    exact hne (string_append_right_injective SALT p q h).symm

/-- Witness for C9 at a concrete identity and concrete passphrases. -/
theorem importIdentity_exportIdentity_roundtrip_witness :
    importIdentity
      (exportIdentity ⟨"did:cc:1", "pk", "sk", "2024"⟩ "hunter2") "hunter2"
      = some ⟨"did:cc:1", "pk", "sk", "2024"⟩
    ∧ importIdentity
      (exportIdentity ⟨"did:cc:1", "pk", "sk", "2024"⟩ "hunter2") "letmein"
      = none := by
  refine ⟨(importIdentity_exportIdentity_roundtrip ⟨"did:cc:1", "pk", "sk", "2024"⟩
    "hunter2" "letmein").1, ?_⟩
  exact (importIdentity_exportIdentity_roundtrip ⟨"did:cc:1", "pk", "sk", "2024"⟩
    "hunter2" "letmein").2 (by decide)

/-! ## Connect module (js/connect.js) -/

/-- Connection stages (connect.js STAGES). -/
inductive Stage
  | INIT
  | OFFER_CREATED
  | SCANNING
  | OFFER_SCANNED
  | ANSWER_CREATED
  | ANSWER_SCANNED
  | CONNECTED
  | EXCHANGING
  | COMPLETE
  | FAILED
deriving DecidableEq

/-- A parsed QR payload, the JSON object the source passes around as
qrData, offerData or answerData.  typeField is the type discriminator
(none when the JSON object has no type property); the other fields are
those the handlers read, with the empty string for absent ones. -/
structure QRPayload where
  typeField : Option String
  did : String
  publicKey : String
  profile : ProfileFields
  profilePictureFlag : Bool
  webrtc : String
deriving DecidableEq

/-- The observations processScannedCode makes of the scanned byte string:
the JSON.parse result (none when parsing throws), and for the non-JSON
case whether the raw string starts with http and contains the
?type=onboarding query marker. -/
structure ScannedCode where
  parsed : Option QRPayload
  startsWithHttp : Bool
  hasOnboardingQuery : Bool

/-- Outcome of processScannedCode: redirect into the onboarding flow,
dispatch to the offer or answer handler, or fail (the source throws the
given message, caught by the surrounding handler which alerts and sets
the stage to FAILED). -/
inductive ScanResult
  | onboardingRedirect
  | offerHandled (payload : QRPayload)
  | answerHandled (payload : QRPayload)
  | scanFailed (message : String)
deriving DecidableEq

/-- connect.js processScannedCode(data): parse as JSON; on parse failure
check for the onboarding URL form and redirect, otherwise fail; on
success dispatch on the type discriminator, failing for unsupported
types. -/
def processScannedCode (code : ScannedCode) : ScanResult :=
  match code.parsed with
  | none =>
    if code.startsWithHttp && code.hasOnboardingQuery then
      ScanResult.onboardingRedirect
    else
      ScanResult.scanFailed "Invalid QR code format"
  | some qrData =>
    if qrData.typeField = some "connection" then
      ScanResult.offerHandled qrData
    else if qrData.typeField = some "connection_answer" then
      ScanResult.answerHandled qrData
    else
      ScanResult.scanFailed "Unsupported QR code type"

/-- Errors of the handshake, per the taxonomy: the identity mismatch
thrown by handleConnectionAnswer's did check, and transport failures
from WebRTC.completeConnection. -/
inductive ConnError
  | IdentityMismatch
  | TransportError
deriving DecidableEq

/-- The did verification at the top of connect.js handleConnectionAnswer:
`connectionData && connectionData.did !== answerData.did`. -/
def didMismatch (connectionData : Option QRPayload) (answerData : QRPayload) : Bool :=
  match connectionData with
  | some cd => cd.did != answerData.did
  | none => false

/-- connect.js handleConnectionAnswer(answerData), run by the offerer with
connectionData holding its own original offer payload.  finalizeOk
models whether the external WebRTC.completeConnection succeeds, and
exchangeOk whether the sends inside handleDataExchange succeed (that
function catches its own errors and sets the stage to FAILED itself).
The result is the sequence of values assigned to connectionStage during
the operation, together with the error the operation failed with, if
any.  On a did mismatch the source throws before any stage assignment
and the catch block assigns FAILED. -/
def handleConnectionAnswer (connectionData : Option QRPayload) (answerData : QRPayload)
    (finalizeOk exchangeOk : Bool) : List Stage × Option ConnError :=
  if didMismatch connectionData answerData then
    ([Stage.FAILED], some ConnError.IdentityMismatch)
  else if finalizeOk then
    if exchangeOk then
      ([Stage.ANSWER_SCANNED, Stage.CONNECTED, Stage.EXCHANGING], none)
    else
      ([Stage.ANSWER_SCANNED, Stage.CONNECTED, Stage.EXCHANGING, Stage.FAILED], none)
  else
    ([Stage.ANSWER_SCANNED, Stage.FAILED], some ConnError.TransportError)

/-! ## Claim C2 -/

/-- C2: when the offerer processes a scanned connection answer whose did
differs from the did of its own original offer payload, the operation
fails with the IdentityMismatch error, the stage becomes FAILED and
never becomes CONNECTED; when the dids match and the transport finalize
step succeeds, the stage reaches CONNECTED. -/
theorem handleConnectionAnswer_did_check (cd answerData : QRPayload)
    (finalizeOk exchangeOk : Bool) :
    (cd.did ≠ answerData.did →
      (handleConnectionAnswer (some cd) answerData finalizeOk exchangeOk).2
          = some ConnError.IdentityMismatch
      ∧ Stage.FAILED ∈ (handleConnectionAnswer (some cd) answerData finalizeOk exchangeOk).1
      ∧ Stage.CONNECTED ∉ (handleConnectionAnswer (some cd) answerData finalizeOk exchangeOk).1)
    ∧ (cd.did = answerData.did → finalizeOk = true →
      Stage.CONNECTED ∈ (handleConnectionAnswer (some cd) answerData finalizeOk exchangeOk).1) := by
  constructor
  · intro hne
    have hm : didMismatch (some cd) answerData = true := by
      simp [didMismatch, hne]
    simp [handleConnectionAnswer, hm]
  · intro heq hfin
    have hm : didMismatch (some cd) answerData = false := by
      simp [didMismatch, heq]
    cases exchangeOk <;> simp [handleConnectionAnswer, hm, hfin]

/-- Witness for C2: a concrete mismatching answer fails with
IdentityMismatch and never reaches CONNECTED, and a concrete matching
answer with a successful finalize reaches CONNECTED. -/
theorem handleConnectionAnswer_did_check_witness :
    ((handleConnectionAnswer
        (some ⟨some "connection", "did:cc:a", "pkA", ⟨"Al", "A", "", ""⟩, false, "offer"⟩)
        ⟨some "connection_answer", "did:cc:b", "", ⟨"", "", "", ""⟩, false, "answer"⟩
        true true).2 = some ConnError.IdentityMismatch
      ∧ Stage.FAILED ∈ (handleConnectionAnswer
        (some ⟨some "connection", "did:cc:a", "pkA", ⟨"Al", "A", "", ""⟩, false, "offer"⟩)
        ⟨some "connection_answer", "did:cc:b", "", ⟨"", "", "", ""⟩, false, "answer"⟩
        true true).1
      ∧ Stage.CONNECTED ∉ (handleConnectionAnswer
        (some ⟨some "connection", "did:cc:a", "pkA", ⟨"Al", "A", "", ""⟩, false, "offer"⟩)
        ⟨some "connection_answer", "did:cc:b", "", ⟨"", "", "", ""⟩, false, "answer"⟩
        true true).1)
    ∧ Stage.CONNECTED ∈ (handleConnectionAnswer
        (some ⟨some "connection", "did:cc:a", "pkA", ⟨"Al", "A", "", ""⟩, false, "offer"⟩)
        ⟨some "connection_answer", "did:cc:a", "", ⟨"", "", "", ""⟩, false, "answer"⟩
        true true).1 := by
  constructor
  · exact (handleConnectionAnswer_did_check
      ⟨some "connection", "did:cc:a", "pkA", ⟨"Al", "A", "", ""⟩, false, "offer"⟩
      ⟨some "connection_answer", "did:cc:b", "", ⟨"", "", "", ""⟩, false, "answer"⟩
      true true).1 (by decide)
  · exact (handleConnectionAnswer_did_check
      ⟨some "connection", "did:cc:a", "pkA", ⟨"Al", "A", "", ""⟩, false, "offer"⟩
      ⟨some "connection_answer", "did:cc:a", "", ⟨"", "", "", ""⟩, false, "answer"⟩
      true true).2 rfl rfl

/-! ## Claim C7 -/

/-- C7: processScannedCode first tries to parse the scanned bytes as JSON.
If parsing fails it checks for the alternate onboarding URL encoding
and, when present, diverts into the onboarding flow instead of a
handshake (otherwise the scan fails as an invalid format).  If parsing
succeeds and the type field is neither connection nor connection_answer
the operation fails with the unsupported-payload error; otherwise it
dispatches to the offer or answer handler matching the type. -/
theorem processScannedCode_dispatch (code : ScannedCode) :
    (code.parsed = none → code.startsWithHttp = true → code.hasOnboardingQuery = true →
      processScannedCode code = ScanResult.onboardingRedirect)
    ∧ (code.parsed = none → (code.startsWithHttp = false ∨ code.hasOnboardingQuery = false) →
      processScannedCode code = ScanResult.scanFailed "Invalid QR code format")
    ∧ (∀ qrData, code.parsed = some qrData →
        qrData.typeField ≠ some "connection" → qrData.typeField ≠ some "connection_answer" →
        processScannedCode code = ScanResult.scanFailed "Unsupported QR code type")
    ∧ (∀ qrData, code.parsed = some qrData → qrData.typeField = some "connection" →
        processScannedCode code = ScanResult.offerHandled qrData)
    ∧ (∀ qrData, code.parsed = some qrData → qrData.typeField = some "connection_answer" →
        processScannedCode code = ScanResult.answerHandled qrData) := by
  refine ⟨?_, ?_, ?_, ?_, ?_⟩
  · intro hp hh hq
    simp [processScannedCode, hp, hh, hq]
  · intro hp hor
    cases hor with
    | inl h => simp [processScannedCode, hp, h]
    | inr h => simp [processScannedCode, hp, h]
  · intro qrData hp h1 h2
    simp [processScannedCode, hp, h1, h2]
  · intro qrData hp h1
    simp [processScannedCode, hp, h1]
  · intro qrData hp h1
    have hne : qrData.typeField ≠ some "connection" := by
      rw [h1]
      intro h
      have := Option.some.inj h
      simp at this
    simp [processScannedCode, hp, h1, hne]

/-- Witness for C7, exercising every branch at concrete scanned codes. -/
theorem processScannedCode_dispatch_witness :
    processScannedCode ⟨none, true, true⟩ = ScanResult.onboardingRedirect
    ∧ processScannedCode ⟨none, true, false⟩ = ScanResult.scanFailed "Invalid QR code format"
    ∧ processScannedCode
        ⟨some ⟨some "profile", "d", "", ⟨"", "", "", ""⟩, false, ""⟩, false, false⟩
        = ScanResult.scanFailed "Unsupported QR code type"
    ∧ processScannedCode
        ⟨some ⟨some "connection", "d", "", ⟨"", "", "", ""⟩, false, ""⟩, false, false⟩
        = ScanResult.offerHandled ⟨some "connection", "d", "", ⟨"", "", "", ""⟩, false, ""⟩
    ∧ processScannedCode
        ⟨some ⟨some "connection_answer", "d", "", ⟨"", "", "", ""⟩, false, ""⟩, false, false⟩
        = ScanResult.answerHandled
            ⟨some "connection_answer", "d", "", ⟨"", "", "", ""⟩, false, ""⟩ := by
  refine ⟨?_, ?_, ?_, ?_, ?_⟩
  · exact (processScannedCode_dispatch ⟨none, true, true⟩).1 rfl rfl rfl
  · exact (processScannedCode_dispatch ⟨none, true, false⟩).2.1 rfl (Or.inr rfl)
  · exact (processScannedCode_dispatch
      ⟨some ⟨some "profile", "d", "", ⟨"", "", "", ""⟩, false, ""⟩, false, false⟩).2.2.1
      _ rfl (by decide) (by decide)
  · exact (processScannedCode_dispatch
      ⟨some ⟨some "connection", "d", "", ⟨"", "", "", ""⟩, false, ""⟩, false, false⟩).2.2.2.1
      _ rfl rfl
  · exact (processScannedCode_dispatch
      ⟨some ⟨some "connection_answer", "d", "", ⟨"", "", "", ""⟩, false, ""⟩,
        false, false⟩).2.2.2.2 _ rfl rfl

/-! ## Record model and stores (js/db.js, js/ui.js App state) -/

/-- Connection record (ui.js createNewConnection).  expiresOn and the
connected timestamps are calendar instants; backupData is the encrypted
backup package. -/
structure Connection where
  id : String
  did : String
  publicKey : String
  firstName : String
  lastName : String
  nickname : String
  bioText : String
  profilePicture : Option String
  firstConnected : Timestamp
  lastConnected : Timestamp
  expiresOn : Timestamp
  connectionCount : Nat
  backupData : AESCipher BackupPayload
deriving DecidableEq

/-- Message record (ui.js createMessage / processReceivedMessages).
content is the local plaintext; inbound processing sets it to the
decryption result, which is null (none) when decryption fails. -/
structure Message where
  id : String
  senderId : String
  senderName : String
  recipientId : String
  recipientName : String
  content : Option String
  encrypted : AESCipher String
  timestamp : Timestamp
  status : String
  isRelay : Bool
deriving DecidableEq

/-- Relay record (ui.js createRelay): a message queued for a recipient,
keyed by targetRecipientId. -/
structure Relay where
  id : String
  messageId : String
  originalSenderId : String
  originalSenderName : String
  targetRecipientId : String
  targetRecipientName : String
  encryptedContent : AESCipher String
  timestamp : Timestamp
  status : String
deriving DecidableEq

/-- IndexedDB put with keyPath id (db.js): replace the record whose key
equals the new record's key, or append it when no record has that key. -/
def putKeyed {α : Type} (key : α → String) (db : List α) (a : α) : List α :=
  if db.any (fun x => key x = key a) then
    db.map (fun x => if key x = key a then a else x)
  else
    db ++ [a]

/-- The three record stores of db.js that the claims range over (the
profile store is carried separately where needed). -/
structure Stores where
  connections : List Connection
  messages : List Message
  relays : List Relay
deriving DecidableEq

/-- db.js saveConnection: put into the connections store. -/
def Stores.saveConnection (s : Stores) (c : Connection) : Stores :=
  { s with connections := putKeyed Connection.id s.connections c }

/-- db.js saveMessage: put into the messages store. -/
def Stores.saveMessage (s : Stores) (m : Message) : Stores :=
  { s with messages := putKeyed Message.id s.messages m }

/-- db.js deleteRelay: delete from the relays store by id. -/
def Stores.deleteRelay (s : Stores) (relayId : String) : Stores :=
  { s with relays := s.relays.filter (fun r => r.id ≠ relayId) }

/-- db.js getConnectionByDID: lookup on the unique did index. -/
def getConnectionByDID (db : List Connection) (did : String) : Option Connection :=
  db.find? (fun c => c.did = did)

/-! ## Data exchange send sequence (connect.js handleDataExchange) -/

/-- The type discriminators of data-channel envelopes sent by
handleDataExchange and the receive handlers. -/
inductive MsgType
  | profileT
  | connectionsT
  | messagesT
  | relaysT
  | completeT
deriving DecidableEq

/-- Profile payload of the profile envelope (connect.js sendProfileData):
profile fields plus the sender's did and public key. -/
structure ProfileOut where
  firstName : String
  lastName : String
  nickname : String
  bioText : String
  did : String
  publicKey : String
deriving DecidableEq

/-- Redacted connection summary sent in the connections envelope
(connect.js sendConnectionsData): name and did only. -/
structure ConnSummary where
  firstName : String
  lastName : String
  did : String
deriving DecidableEq

/-- A typed data-channel envelope, as passed to WebRTC.sendData. -/
inductive Envelope
  | profileData (fields : ProfileOut) (picture : Option String)
  | connectionsData (connections : List ConnSummary)
  | messagesData (messages : List Message)
  | relaysData (relays : List Relay)
  | completeData
deriving DecidableEq

/-- The type discriminator of an envelope. -/
def Envelope.msgType : Envelope → MsgType
  | .profileData _ _ => .profileT
  | .connectionsData _ => .connectionsT
  | .messagesData _ => .messagesT
  | .relaysData _ => .relaysT
  | .completeData => .completeT

/-- connect.js sendProfileData(profile): the profile envelope, carrying
the profile picture when one is set. -/
def sendProfileData (profile : Profile) : Envelope :=
  Envelope.profileData
    { firstName := profile.firstName
      lastName := profile.lastName
      nickname := profile.nickname
      bioText := profile.bioText
      did := profile.identity.did
      publicKey := profile.identity.publicKey }
    profile.profilePicture

/-- connect.js sendConnectionsData(connections): the redacted list. -/
def sendConnectionsData (connections : List Connection) : Envelope :=
  Envelope.connectionsData
    (connections.map (fun c => { firstName := c.firstName, lastName := c.lastName, did := c.did }))

/-- connect.js sendMessagesData(messages): the source sends an empty
array (filtering for the recipient is left unimplemented there). -/
def sendMessagesData (_messages : List Message) : Envelope :=
  Envelope.messagesData []

/-- connect.js sendRelaysData(relays): when connection data with a did is
held, the relays whose targetRecipientId equals that did; otherwise an
empty list.  The store is only read, never written. -/
def sendRelaysData (relays : List Relay) (connectionData : Option QRPayload) : Envelope :=
  Envelope.relaysData
    (match connectionData with
     | some cd =>
       if cd.did ≠ "" then relays.filter (fun r => r.targetRecipientId = cd.did) else []
     | none => [])

/-- connect.js handleDataExchange: after setting the stage to EXCHANGING,
send the profile, connections, messages and relays envelopes in that
order, then the completion envelope.  The result is the list of
envelopes passed to WebRTC.sendData, in send order. -/
def handleDataExchange (profile : Profile) (connections : List Connection)
    (relays : List Relay) (connectionData : Option QRPayload) : List Envelope :=
  [ sendProfileData profile
  , sendConnectionsData connections
  , sendMessagesData []
  , sendRelaysData relays connectionData
  , Envelope.completeData ]

/-! ## Claim C8 -/

/-- C8: in every data-exchange session the sending side emits exactly five
typed messages, in the strict order profile, connections, messages,
relays, complete: no step is sent before its predecessor and the
complete message is always last. -/
theorem handleDataExchange_send_order (profile : Profile) (connections : List Connection)
    (relays : List Relay) (connectionData : Option QRPayload) :
    (handleDataExchange profile connections relays connectionData).map Envelope.msgType
      = [MsgType.profileT, MsgType.connectionsT, MsgType.messagesT,
         MsgType.relaysT, MsgType.completeT] := by
  rfl

/-! ## App connection operations (js/ui.js) -/

/-- The JavaScript or-operator on optional strings: the incoming value
unless it is absent or empty, otherwise the existing one. -/
def jsOr (incoming existing : String) : String :=
  if incoming = "" then existing else incoming

/-- The argument App.addConnection receives from the Connect module on
handshake completion: did, public key, profile fields and the optional
profile picture transferred during the exchange. -/
structure ConnectionData where
  did : String
  publicKey : String
  profile : ProfileFields
  profilePicture : Option String
deriving DecidableEq

/-- ui.js createNewConnection(connectionData): a fresh record with a new
uuid, both connected timestamps at now, expiration one calendar year
from now, count 1 and a fresh backup package. -/
def createNewConnection (connectionData : ConnectionData) (profile : Profile)
    (identity : Identity) (now : Timestamp) (freshId : String) : Connection :=
  { id := freshId
    did := connectionData.did
    publicKey := connectionData.publicKey
    firstName := connectionData.profile.firstName
    lastName := connectionData.profile.lastName
    nickname := connectionData.profile.nickname
    bioText := connectionData.profile.bioText
    profilePicture := connectionData.profilePicture
    firstConnected := now
    lastConnected := now
    expiresOn := now.plusOneYear
    connectionCount := 1
    backupData := createBackupData profile identity now }

/-- ui.js updateExistingConnection(existingConnection, newData): spread of
the existing record with non-empty incoming fields overwriting, the
connected timestamp and expiration recomputed, the count incremented,
and the profile picture replaced only when the incoming data carries
one. -/
def updateExistingConnection (existing : Connection) (newData : ConnectionData)
    (profile : Profile) (identity : Identity) (now : Timestamp) : Connection :=
  let updated : Connection :=
    { existing with
      publicKey := jsOr newData.publicKey existing.publicKey
      firstName := jsOr newData.profile.firstName existing.firstName
      lastName := jsOr newData.profile.lastName existing.lastName
      nickname := jsOr newData.profile.nickname existing.nickname
      bioText := jsOr newData.profile.bioText existing.bioText
      lastConnected := now
      expiresOn := now.plusOneYear
      connectionCount := existing.connectionCount + 1
      backupData := createBackupData profile identity now }
  match newData.profilePicture with
  | some pic => { updated with profilePicture := some pic }
  | none => updated

/-- ui.js addConnection(connectionData): look the did up in the store and
either update the existing record or create a new one; the result is
saved with the keyed put of db.js.  Returns the new stores and the
returned connection. -/
def addConnection (s : Stores) (connectionData : ConnectionData) (profile : Profile)
    (identity : Identity) (now : Timestamp) (freshId : String) : Stores × Connection :=
  match getConnectionByDID s.connections connectionData.did with
  | some existing =>
    let updated := updateExistingConnection existing connectionData profile identity now
    (s.saveConnection updated, updated)
  | none =>
    let created := createNewConnection connectionData profile identity now freshId
    (s.saveConnection created, created)

/-- ui.js processRelaysForConnection, the message a delivered relay is
turned into inside the loop (status delivered, no content field). -/
def relayToDeliveredMessage (relay : Relay) (now : Timestamp) (freshId : String) : Message :=
  { id := freshId
    senderId := relay.originalSenderId
    senderName := relay.originalSenderName
    recipientId := relay.targetRecipientId
    recipientName := relay.targetRecipientName
    content := none
    encrypted := relay.encryptedContent
    timestamp := now
    status := "delivered"
    isRelay := true }

/-- The loop of ui.js processRelaysForConnection: for each relay to
deliver, delete it from the relays store and from the in-memory state
list and collect the delivered message.  fresh is the uuid supply. -/
def processRelaysLoop (s : Stores) (stateRelays : List Relay) (now : Timestamp)
    (fresh : Nat → String) (k : Nat) (acc : List Message) :
    List Relay → Stores × List Relay × List Message
  | [] => (s, stateRelays, acc)
  | relay :: rest =>
    processRelaysLoop (s.deleteRelay relay.id)
      (stateRelays.filter (fun r => r.id ≠ relay.id)) now fresh (k + 1)
      (acc ++ [relayToDeliveredMessage relay now (fresh k)]) rest

/-- ui.js processRelaysForConnection(connection): deliver (and delete)
every relay whose targetRecipientId equals the connection's did.  The
App module exports this operation but, in the source as it stands, no
code path invokes it. -/
def processRelaysForConnection (s : Stores) (stateRelays : List Relay)
    (connectionDid : String) (now : Timestamp) (fresh : Nat → String) :
    Stores × List Relay × List Message :=
  processRelaysLoop s stateRelays now fresh 0 []
    (stateRelays.filter (fun r => r.targetRecipientId = connectionDid))

/-- connect.js handleTransferComplete → completeConnection: on receiving
the complete envelope the stage becomes COMPLETE and App.addConnection
is called with the held connection data.  This is the only store write
on the wired session-completion path: neither sendRelaysData nor the
relays_ack handler writes any store, and nothing on this path invokes
App.processRelaysForConnection. -/
def completeConnectionCommit (s : Stores) (connectionData : ConnectionData)
    (profile : Profile) (identity : Identity) (now : Timestamp) (freshId : String) : Stores :=
  (addConnection s connectionData profile identity now freshId).1

/-! ### Projection lemmas for updateExistingConnection -/

theorem updateExistingConnection_id (existing : Connection) (newData : ConnectionData)
    (profile : Profile) (identity : Identity) (now : Timestamp) :
    (updateExistingConnection existing newData profile identity now).id = existing.id := by
  obtain ⟨d, pk, pf, pic⟩ := newData
  cases pic <;> rfl

theorem updateExistingConnection_did (existing : Connection) (newData : ConnectionData)
    (profile : Profile) (identity : Identity) (now : Timestamp) :
    (updateExistingConnection existing newData profile identity now).did = existing.did := by
  obtain ⟨d, pk, pf, pic⟩ := newData
  cases pic <;> rfl

theorem updateExistingConnection_firstConnected (existing : Connection)
    (newData : ConnectionData) (profile : Profile) (identity : Identity) (now : Timestamp) :
    (updateExistingConnection existing newData profile identity now).firstConnected
      = existing.firstConnected := by
  obtain ⟨d, pk, pf, pic⟩ := newData
  cases pic <;> rfl

theorem updateExistingConnection_connectionCount (existing : Connection)
    (newData : ConnectionData) (profile : Profile) (identity : Identity) (now : Timestamp) :
    (updateExistingConnection existing newData profile identity now).connectionCount
      = existing.connectionCount + 1 := by
  obtain ⟨d, pk, pf, pic⟩ := newData
  cases pic <;> rfl

theorem updateExistingConnection_lastConnected (existing : Connection)
    (newData : ConnectionData) (profile : Profile) (identity : Identity) (now : Timestamp) :
    (updateExistingConnection existing newData profile identity now).lastConnected = now := by
  obtain ⟨d, pk, pf, pic⟩ := newData
  cases pic <;> rfl

theorem updateExistingConnection_expiresOn (existing : Connection)
    (newData : ConnectionData) (profile : Profile) (identity : Identity) (now : Timestamp) :
    (updateExistingConnection existing newData profile identity now).expiresOn
      = now.plusOneYear := by
  obtain ⟨d, pk, pf, pic⟩ := newData
  cases pic <;> rfl

theorem updateExistingConnection_firstName (existing : Connection)
    (newData : ConnectionData) (profile : Profile) (identity : Identity) (now : Timestamp) :
    (updateExistingConnection existing newData profile identity now).firstName
      = jsOr newData.profile.firstName existing.firstName := by
  obtain ⟨d, pk, pf, pic⟩ := newData
  cases pic <;> rfl

theorem updateExistingConnection_lastName (existing : Connection)
    (newData : ConnectionData) (profile : Profile) (identity : Identity) (now : Timestamp) :
    (updateExistingConnection existing newData profile identity now).lastName
      = jsOr newData.profile.lastName existing.lastName := by
  obtain ⟨d, pk, pf, pic⟩ := newData
  cases pic <;> rfl

theorem updateExistingConnection_nickname (existing : Connection)
    (newData : ConnectionData) (profile : Profile) (identity : Identity) (now : Timestamp) :
    (updateExistingConnection existing newData profile identity now).nickname
      = jsOr newData.profile.nickname existing.nickname := by
  obtain ⟨d, pk, pf, pic⟩ := newData
  cases pic <;> rfl

theorem updateExistingConnection_bioText (existing : Connection)
    (newData : ConnectionData) (profile : Profile) (identity : Identity) (now : Timestamp) :
    (updateExistingConnection existing newData profile identity now).bioText
      = jsOr newData.profile.bioText existing.bioText := by
  obtain ⟨d, pk, pf, pic⟩ := newData
  cases pic <;> rfl

theorem updateExistingConnection_picture_none (existing : Connection)
    (newData : ConnectionData) (profile : Profile) (identity : Identity) (now : Timestamp)
    (h : newData.profilePicture = none) :
    (updateExistingConnection existing newData profile identity now).profilePicture
      = existing.profilePicture := by
  simp [updateExistingConnection, h]

/-! ### Keyed-store lemmas for the connections store -/

theorem putKeyed_eq_map_replace (db : List Connection) (u existing : Connection)
    (hmem : existing ∈ db) (hid : existing.id = u.id) :
    putKeyed Connection.id db u = db.map (fun x => if x.id = u.id then u else x) := by
  unfold putKeyed
  rw [if_pos]
  exact List.any_eq_true.mpr ⟨existing, hmem, by simp [hid]⟩

theorem map_replace_filter_did (db : List Connection) (existing u : Connection) (did : String)
    (hmem : existing ∈ db)
    (hid : u.id = existing.id)
    (hudid : u.did = did)
    (hedid : existing.did = did)
    (hids : (db.map Connection.id).Nodup)
    (hdids : (db.map Connection.did).Nodup) :
    (db.map (fun x => if x.id = u.id then u else x)).filter (fun c => c.did = did) = [u] := by
  induction db with
  | nil => cases hmem
  | cons a t ih =>
    rw [List.map_cons, List.nodup_cons] at hids hdids
    obtain ⟨hida, hidt⟩ := hids
    obtain ⟨hdida, hdidt⟩ := hdids
    rcases List.mem_cons.mp hmem with heq | hmemt
    · subst heq
      rw [List.map_cons, if_pos (by rw [hid]), List.filter_cons,
        if_pos (by simp [hudid])]
      have htail : (t.map (fun x => if x.id = u.id then u else x)).filter
          (fun c => c.did = did) = [] := by
        rw [List.filter_eq_nil_iff]
        intro y hy
        obtain ⟨x, hx, hfx⟩ := List.mem_map.mp hy
        have hxid : x.id ≠ u.id := by
          intro hcontra
          rw [hid] at hcontra
          have hxin : x.id ∈ t.map Connection.id := List.mem_map_of_mem _ hx
          rw [hcontra] at hxin
          exact hida hxin
        rw [if_neg hxid] at hfx
        subst hfx
        simp only [decide_eq_true_eq]
        intro hcontra
        rw [← hedid] at hcontra
        have hxin : x.did ∈ t.map Connection.did := List.mem_map_of_mem _ hx
        rw [hcontra] at hxin
        exact hdida hxin
      rw [htail]
    · have haid : a.id ≠ u.id := by
        intro hcontra
        exact hida (by rw [hid] at hcontra; rw [hcontra]; exact List.mem_map_of_mem _ hmemt)
      have hadid : a.did ≠ did := by
        intro hcontra
        exact hdida (by rw [← hedid] at hcontra; rw [hcontra]; exact List.mem_map_of_mem _ hmemt)
      rw [List.map_cons, if_neg haid, List.filter_cons, if_neg (by simp [hadid])]
      exact ih hmemt hidt hdidt

/-! ## Claim C4 -/

/-- C4: a second successful handshake with an already-known did updates
the single existing Connection record in place: the store afterwards
holds exactly one Connection record for that did (namely the returned
one), its connectionCount is the old count plus one, its expiration
equals the new lastConnected timestamp plus one calendar year (the same
equation also holds after creation of a fresh record), and each
non-empty incoming profile field overwrites the stored one while an
empty or absent incoming field preserves the existing value.  The two
Nodup hypotheses are the uniqueness invariants IndexedDB enforces: id
is the key path of the connections store and did a unique index. -/
theorem addConnection_repeat_handshake (s : Stores) (cd : ConnectionData)
    (profile : Profile) (identity : Identity) (now : Timestamp) (freshId : String)
    (hids : (s.connections.map Connection.id).Nodup)
    (hdids : (s.connections.map Connection.did).Nodup) :
    (∀ existing u, getConnectionByDID s.connections cd.did = some existing →
      (addConnection s cd profile identity now freshId).2 = u →
      (addConnection s cd profile identity now freshId).1.connections.filter
          (fun c => c.did = cd.did) = [u]
      ∧ u.connectionCount = existing.connectionCount + 1
      ∧ u.expiresOn = u.lastConnected.plusOneYear
      ∧ (cd.profile.firstName ≠ "" → u.firstName = cd.profile.firstName)
      ∧ (cd.profile.firstName = "" → u.firstName = existing.firstName)
      ∧ (cd.profile.lastName ≠ "" → u.lastName = cd.profile.lastName)
      ∧ (cd.profile.lastName = "" → u.lastName = existing.lastName)
      ∧ (cd.profile.nickname ≠ "" → u.nickname = cd.profile.nickname)
      ∧ (cd.profile.nickname = "" → u.nickname = existing.nickname)
      ∧ (cd.profile.bioText ≠ "" → u.bioText = cd.profile.bioText)
      ∧ (cd.profile.bioText = "" → u.bioText = existing.bioText))
    ∧ (getConnectionByDID s.connections cd.did = none →
      (addConnection s cd profile identity now freshId).2.connectionCount = 1
      ∧ (addConnection s cd profile identity now freshId).2.expiresOn
          = (addConnection s cd profile identity now freshId).2.lastConnected.plusOneYear) := by
  constructor
  · intro existing u hfound hu
    have hmem : existing ∈ s.connections := List.mem_of_find?_eq_some hfound
    have hedid : existing.did = cd.did := by
      have := List.find?_some hfound
      simpa using this
    have hres : addConnection s cd profile identity now freshId
        = (s.saveConnection (updateExistingConnection existing cd profile identity now),
           updateExistingConnection existing cd profile identity now) := by
      simp [addConnection, hfound]
    have huval : u = updateExistingConnection existing cd profile identity now := by
      rw [← hu, hres]
    subst huval
    refine ⟨?_, ?_, ?_, ?_, ?_, ?_, ?_, ?_, ?_, ?_, ?_⟩
    · rw [hres]
      show (Stores.saveConnection s _).connections.filter (fun c => c.did = cd.did) = _
      rw [Stores.saveConnection]
      rw [putKeyed_eq_map_replace s.connections _ existing hmem
        (by rw [updateExistingConnection_id])]
      exact map_replace_filter_did s.connections existing _ cd.did hmem
        (updateExistingConnection_id _ _ _ _ _)
        (by rw [updateExistingConnection_did, hedid]) hedid hids hdids
    · exact updateExistingConnection_connectionCount _ _ _ _ _
    · rw [updateExistingConnection_expiresOn, updateExistingConnection_lastConnected]
    · intro hne
      rw [updateExistingConnection_firstName, jsOr, if_neg hne]
    · intro hemp
      rw [updateExistingConnection_firstName, jsOr, if_pos hemp]
    · intro hne
      rw [updateExistingConnection_lastName, jsOr, if_neg hne]
    · intro hemp
      rw [updateExistingConnection_lastName, jsOr, if_pos hemp]
    · intro hne
      rw [updateExistingConnection_nickname, jsOr, if_neg hne]
    · intro hemp
      rw [updateExistingConnection_nickname, jsOr, if_pos hemp]
    · intro hne
      rw [updateExistingConnection_bioText, jsOr, if_neg hne]
    · intro hemp
      rw [updateExistingConnection_bioText, jsOr, if_pos hemp]
  · intro hnone
    have hres : addConnection s cd profile identity now freshId
        = (s.saveConnection (createNewConnection cd profile identity now freshId),
           createNewConnection cd profile identity now freshId) := by
      simp [addConnection, hnone]
    rw [hres]
    exact ⟨rfl, rfl⟩

/-- Example identity used by concrete witnesses. -/
def wIdentity : Identity :=
  { did := "did:cc:me", publicKey := SHA256 "sk0", privateKey := "sk0", created := "2025" }

/-- Example local profile used by concrete witnesses. -/
def wProfile : Profile :=
  { id := "p1", firstName := "Mallory", lastName := "Moore", nickname := "",
    bioText := "", profilePicture := none, identity := wIdentity }

/-- Connection data of the peer's first handshake, used by witnesses. -/
def wCD1 : ConnectionData :=
  { did := "did:cc:peer", publicKey := "pkPeer",
    profile := { firstName := "Bob", lastName := "Jones", nickname := "", bioText := "" },
    profilePicture := none }

/-- The stored connection after the peer's first handshake. -/
def wConn : Connection := createNewConnection wCD1 wProfile wIdentity ⟨2025, 3⟩ "c1"

/-- Stores holding exactly the one connection wConn. -/
def wStores : Stores := { connections := [wConn], messages := [], relays := [] }

/-- Connection data of the peer's second handshake: a new first name, an
empty last name (to be preserved from the store), no picture. -/
def wCD2 : ConnectionData :=
  { did := "did:cc:peer", publicKey := "pkPeer2",
    profile := { firstName := "Robert", lastName := "", nickname := "", bioText := "" },
    profilePicture := none }

/-- Witness for C4: on the concrete store wStores, a second handshake
with the same did updates in place: one record for the did,
incremented count, expiration one year after the new lastConnected,
non-empty incoming first name taken, empty incoming last name kept;
and on an empty store the freshly created record satisfies the same
expiration equation with count 1. -/
theorem addConnection_repeat_handshake_witness :
    ((addConnection wStores wCD2 wProfile wIdentity ⟨2026, 7⟩ "c2").1.connections.filter
        (fun c => c.did = wCD2.did)
      = [(addConnection wStores wCD2 wProfile wIdentity ⟨2026, 7⟩ "c2").2])
    ∧ (addConnection wStores wCD2 wProfile wIdentity ⟨2026, 7⟩ "c2").2.connectionCount
        = wConn.connectionCount + 1
    ∧ (addConnection wStores wCD2 wProfile wIdentity ⟨2026, 7⟩ "c2").2.expiresOn
        = (addConnection wStores wCD2 wProfile wIdentity ⟨2026, 7⟩ "c2").2.lastConnected.plusOneYear
    ∧ (addConnection wStores wCD2 wProfile wIdentity ⟨2026, 7⟩ "c2").2.firstName = "Robert"
    ∧ (addConnection wStores wCD2 wProfile wIdentity ⟨2026, 7⟩ "c2").2.lastName = wConn.lastName
    ∧ (addConnection ⟨[], [], []⟩ wCD1 wProfile wIdentity ⟨2025, 3⟩ "c1").2.connectionCount = 1
    ∧ (addConnection ⟨[], [], []⟩ wCD1 wProfile wIdentity ⟨2025, 3⟩ "c1").2.expiresOn
        = (addConnection ⟨[], [], []⟩ wCD1 wProfile wIdentity
            ⟨2025, 3⟩ "c1").2.lastConnected.plusOneYear := by
  have h := addConnection_repeat_handshake wStores wCD2 wProfile wIdentity ⟨2026, 7⟩ "c2"
    (by decide) (by decide)
  have h1 := h.1 wConn (addConnection wStores wCD2 wProfile wIdentity ⟨2026, 7⟩ "c2").2
    (by decide) rfl
  have h0 := (addConnection_repeat_handshake ⟨[], [], []⟩ wCD1 wProfile wIdentity
    ⟨2025, 3⟩ "c1" (by decide) (by decide)).2 (by decide)
  exact ⟨h1.1, h1.2.1, h1.2.2.1, h1.2.2.2.1 (by decide), h1.2.2.2.2.2.2.1 rfl, h0.1, h0.2⟩

/-! ## Claim C10 -/

/-- C10: the update operation for a re-handshake leaves the record's id,
did and firstConnected fields unchanged, and leaves the profile
picture unchanged when the incoming payload carries none. -/
theorem updateExistingConnection_frame (existing : Connection) (newData : ConnectionData)
    (profile : Profile) (identity : Identity) (now : Timestamp) :
    (updateExistingConnection existing newData profile identity now).id = existing.id
    ∧ (updateExistingConnection existing newData profile identity now).did = existing.did
    ∧ (updateExistingConnection existing newData profile identity now).firstConnected
        = existing.firstConnected
    ∧ (newData.profilePicture = none →
        (updateExistingConnection existing newData profile identity now).profilePicture
          = existing.profilePicture) :=
  ⟨updateExistingConnection_id existing newData profile identity now,
   updateExistingConnection_did existing newData profile identity now,
   updateExistingConnection_firstConnected existing newData profile identity now,
   fun h => updateExistingConnection_picture_none existing newData profile identity now h⟩

/-- Witness for C10 at concrete records, with a picture-less payload. -/
theorem updateExistingConnection_frame_witness :
    (updateExistingConnection wConn wCD2 wProfile wIdentity ⟨2026, 7⟩).id = wConn.id
    ∧ (updateExistingConnection wConn wCD2 wProfile wIdentity ⟨2026, 7⟩).did = wConn.did
    ∧ (updateExistingConnection wConn wCD2 wProfile wIdentity ⟨2026, 7⟩).firstConnected
        = wConn.firstConnected
    ∧ (updateExistingConnection wConn wCD2 wProfile wIdentity ⟨2026, 7⟩).profilePicture
        = wConn.profilePicture := by
  have h := updateExistingConnection_frame wConn wCD2 wProfile wIdentity ⟨2026, 7⟩
  exact ⟨h.1, h.2.1, h.2.2.1, h.2.2.2 rfl⟩

/-! ## Claim C3 -/

/-- C3: the claim states that after a completed data-exchange session
with a peer whose did is X, every Relay record with targetRecipientId
X is deleted from local storage.  On the code this deletion never
happens: the wired session-completion path (handleTransferComplete →
completeConnection → App.addConnection) only writes the connections
store, App.processRelaysForConnection — the routine that would perform
exactly this deletion — is exported but invoked by no code path, and
neither sendRelaysData nor the relays_ack handler deletes anything.
This theorem evaluates the completion path: the relays store (and the
messages store) after the session equals the store before it, so a
relay targeted at the connected peer is still present afterwards. -/
theorem session_complete_preserves_relays (s : Stores) (cd : ConnectionData)
    (profile : Profile) (identity : Identity) (now : Timestamp) (freshId : String) :
    (completeConnectionCommit s cd profile identity now freshId).relays = s.relays
    ∧ (completeConnectionCommit s cd profile identity now freshId).messages = s.messages := by
  unfold completeConnectionCommit addConnection
  cases getConnectionByDID s.connections cd.did <;>
    exact ⟨rfl, rfl⟩

/-! ## Inbound message and relay processing (js/ui.js) -/

/-- ui.js processReceivedMessages(messages): for each inbound message
whose id is not already in the in-memory received list, set content to
the decryption of its ciphertext under the local private key (null,
i.e. none, when decryption fails — the result is saved either way),
save it to the messages store with the keyed put of db.js, and append
it to the received list; an item whose id is already in the received
list is skipped.  Returns the stores and the received list. -/
def processReceivedMessages (s : Stores) (received : List Message) (privateKey : String) :
    List Message → Stores × List Message
  | [] => (s, received)
  | m :: rest =>
    if received.any (fun x => x.id = m.id) then
      processReceivedMessages s received privateKey rest
    else
      let m2 : Message := { m with content := decryptMessage m.encrypted privateKey }
      processReceivedMessages (s.saveMessage m2) (received ++ [m2]) privateKey rest

/-- An inbound relay item as the relays branch of ui.js
processReceivedData reads it: relay.id (empty when absent, in which
case the source draws a fresh uuid), relay.senderId, relay.senderName,
relay.encrypted and relay.timestamp (none when absent, in which case
the source uses now). -/
structure WireRelay where
  id : String
  senderId : String
  senderName : String
  encrypted : AESCipher String
  timestamp : Option Timestamp
deriving DecidableEq

/-- The received Message one relay item of ui.js processReceivedData is
turned into: addressed to the local identity, content set to the
decryption result (none on failure), status received. -/
def wireRelayToMessage (r : WireRelay) (selfDid selfName privateKey : String)
    (now : Timestamp) (freshId : String) : Message :=
  { id := if r.id = "" then freshId else r.id
    senderId := r.senderId
    senderName := r.senderName
    recipientId := selfDid
    recipientName := selfName
    content := decryptMessage r.encrypted privateKey
    encrypted := r.encrypted
    timestamp := r.timestamp.getD now
    status := "received"
    isRelay := true }

/-- The relays loop of ui.js processReceivedData: each relay item is
turned into a received Message, saved with the keyed put and appended
to the received list.  There is no already-present check in this loop.
fresh is the uuid supply and k its counter. -/
def processRelayItems (s : Stores) (received : List Message) (selfDid selfName : String)
    (privateKey : String) (now : Timestamp) (fresh : Nat → String) (k : Nat) :
    List WireRelay → Stores × List Message
  | [] => (s, received)
  | r :: rest =>
    processRelayItems
      (s.saveMessage (wireRelayToMessage r selfDid selfName privateKey now (fresh k)))
      (received ++ [wireRelayToMessage r selfDid selfName privateKey now (fresh k)])
      selfDid selfName privateKey now fresh (k + 1) rest

/-- The typed payload of one received data-channel envelope set, as
ui.js processReceivedData dispatches on it. -/
structure ReceivedData where
  profilePart : Option ConnectionData
  connections : List ConnSummary
  messages : List Message
  relays : List WireRelay

/-- ui.js processReceivedData(data): create or update the connection from
the profile part, persist inbound messages via processReceivedMessages,
log second-degree connections (no store effect), and persist relay
items via the relays loop. -/
def processReceivedData (s : Stores) (received : List Message) (profile : Profile)
    (identity : Identity) (now : Timestamp) (fresh : Nat → String) (freshId : String)
    (data : ReceivedData) : Stores × List Message :=
  let s1 : Stores :=
    match data.profilePart with
    | some cdata => (addConnection s cdata profile identity now freshId).1
    | none => s
  let step := processReceivedMessages s1 received identity.privateKey data.messages
  processRelayItems step.1 step.2 identity.did
    (profile.firstName ++ " " ++ profile.lastName) identity.privateKey now fresh 0 data.relays

/-! ### Counting and membership lemmas for the keyed put -/

/-- Number of records with the given id in a messages store. -/
def countId (db : List Message) (i : String) : Nat :=
  db.countP (fun m => m.id = i)

theorem countP_map_replace {α : Type} (key : α → String) (db : List α) (a : α) :
    (db.map (fun x => if key x = key a then a else x)).countP (fun x => key x = key a)
      = db.countP (fun x => key x = key a) := by
  induction db with
  | nil => rfl
  | cons b t ih =>
    rw [List.map_cons, List.countP_cons, List.countP_cons, ih]
    by_cases h : key b = key a
    · rw [if_pos h, h]
    · rw [if_neg h]

theorem countP_putKeyed_replace {α : Type} (key : α → String) (db : List α) (a : α)
    (h : db.any (fun x => key x = key a) = true) :
    (putKeyed key db a).countP (fun x => key x = key a)
      = db.countP (fun x => key x = key a) := by
  unfold putKeyed
  rw [if_pos h]
  exact countP_map_replace key db a

theorem countP_putKeyed_append {α : Type} (key : α → String) (db : List α) (a : α)
    (h : db.any (fun x => key x = key a) = false) :
    (putKeyed key db a).countP (fun x => key x = key a)
      = db.countP (fun x => key x = key a) + 1 := by
  unfold putKeyed
  rw [if_neg (by simp [h]), List.countP_append]
  simp

theorem countP_eq_zero_of_any_false {α : Type} (key : α → String) (db : List α) (a : α)
    (h : db.any (fun x => key x = key a) = false) :
    db.countP (fun x => key x = key a) = 0 := by
  rw [List.countP_eq_zero]
  intro x hx
  have := List.any_eq_false.mp h x hx
  simpa using this

theorem any_of_countP_pos {α : Type} (key : α → String) (db : List α) (a : α)
    (h : 0 < db.countP (fun x => key x = key a)) :
    db.any (fun x => key x = key a) = true := by
  obtain ⟨x, hx, hpx⟩ := List.countP_pos_iff.mp h
  exact List.any_eq_true.mpr ⟨x, hx, hpx⟩

/-- Putting a record with a given id into a store holding at most one
record with that id leaves exactly one record with that id. -/
theorem countP_putKeyed_le_one {α : Type} (key : α → String) (db : List α) (a : α)
    (h : db.countP (fun x => key x = key a) ≤ 1) :
    (putKeyed key db a).countP (fun x => key x = key a) = 1 := by
  cases hany : db.any (fun x => key x = key a) with
  | true =>
    rw [countP_putKeyed_replace key db a hany]
    obtain ⟨x, hx, hpx⟩ := List.any_eq_true.mp hany
    have hpos : 0 < db.countP (fun x => key x = key a) :=
      List.countP_pos_iff.mpr ⟨x, hx, hpx⟩
    omega
  | false =>
    rw [countP_putKeyed_append key db a hany, countP_eq_zero_of_any_false key db a hany]

theorem mem_putKeyed_self {α : Type} (key : α → String) (db : List α) (a : α) :
    a ∈ putKeyed key db a := by
  unfold putKeyed
  split
  · next h =>
    obtain ⟨x, hx, hpx⟩ := List.any_eq_true.mp h
    refine List.mem_map.mpr ⟨x, hx, ?_⟩
    rw [if_pos (by simpa using hpx)]
  · exact List.mem_append_right _ (List.mem_singleton.mpr rfl)

theorem mem_putKeyed_of_key_ne {α : Type} (key : α → String) (db : List α) (a y : α)
    (hy : y ∈ db) (hne : key y ≠ key a) : y ∈ putKeyed key db a := by
  unfold putKeyed
  split
  · refine List.mem_map.mpr ⟨y, hy, ?_⟩
    rw [if_neg hne]
  · exact List.mem_append_left _ hy

/-! ### Equation and survival lemmas for the processing loops -/

theorem processReceivedMessages_cons_skip (s : Stores) (received : List Message)
    (privateKey : String) (m : Message) (rest : List Message)
    (h : received.any (fun x => x.id = m.id) = true) :
    processReceivedMessages s received privateKey (m :: rest)
      = processReceivedMessages s received privateKey rest := by
  simp [processReceivedMessages, h]

theorem processReceivedMessages_cons_save (s : Stores) (received : List Message)
    (privateKey : String) (m : Message) (rest : List Message)
    (h : received.any (fun x => x.id = m.id) = false) :
    processReceivedMessages s received privateKey (m :: rest)
      = processReceivedMessages
          (s.saveMessage { m with content := decryptMessage m.encrypted privateKey })
          (received ++ [{ m with content := decryptMessage m.encrypted privateKey }])
          privateKey rest := by
  simp [processReceivedMessages, h]

/-- A record already in the messages store survives processing of a
batch none of whose item ids equal its id. -/
theorem processReceivedMessages_preserves (batch : List Message) (s : Stores)
    (received : List Message) (privateKey : String) (y : Message)
    (hy : y ∈ s.messages) (hne : ∀ m ∈ batch, m.id ≠ y.id) :
    y ∈ (processReceivedMessages s received privateKey batch).1.messages := by
  induction batch generalizing s received with
  | nil => exact hy
  | cons m rest ih =>
    by_cases hA : received.any (fun x => x.id = m.id) = true
    · rw [processReceivedMessages_cons_skip s received privateKey m rest hA]
      exact ih s received hy (fun x hx => hne x (List.mem_cons_of_mem m hx))
    · rw [processReceivedMessages_cons_save s received privateKey m rest
        (Bool.eq_false_iff.mpr hA)]
      apply ih
      · show y ∈ putKeyed Message.id s.messages _
        exact mem_putKeyed_of_key_ne Message.id s.messages _ y hy
          (Ne.symm (hne m (List.mem_cons_self m rest)))
      · exact fun x hx => hne x (List.mem_cons_of_mem m hx)

/-- A record already in the messages store survives the relay loop when
no item id equals its id (all item ids present). -/
theorem processRelayItems_preserves (items : List WireRelay) (s : Stores)
    (received : List Message) (selfDid selfName privateKey : String) (now : Timestamp)
    (fresh : Nat → String) (k : Nat) (y : Message)
    (hy : y ∈ s.messages) (hne : ∀ r ∈ items, r.id ≠ y.id)
    (hids : ∀ r ∈ items, r.id ≠ "") :
    y ∈ (processRelayItems s received selfDid selfName privateKey now fresh k
      items).1.messages := by
  induction items generalizing s received k with
  | nil => exact hy
  | cons r rest ih =>
    show y ∈ (processRelayItems
      (s.saveMessage (wireRelayToMessage r selfDid selfName privateKey now (fresh k))) _
      selfDid selfName privateKey now fresh (k + 1) rest).1.messages
    apply ih
    · show y ∈ putKeyed Message.id s.messages _
      apply mem_putKeyed_of_key_ne Message.id s.messages _ y hy
      show y.id ≠ (wireRelayToMessage r selfDid selfName privateKey now (fresh k)).id
      rw [wireRelayToMessage, if_neg (hids r (List.mem_cons_self r rest))]
      exact Ne.symm (hne r (List.mem_cons_self r rest))
    · exact fun x hx => hne x (List.mem_cons_of_mem r hx)
    · exact fun x hx => hids x (List.mem_cons_of_mem r hx)

/-! ## Claim C5 -/

/-- C5: processing the same inbound Message id twice leaves exactly one
record with that id in the messages store, whether the item arrives in
a messages batch (where an id already in the received list is skipped)
or carried inside a relays batch (where there is no skip check, but
db.js saveMessage is an IndexedDB put with key path id, which replaces
the record with the same id instead of adding one).  The two store
hypotheses are the invariants of the keyed store: at most one record
per id, and an id present in the in-memory received list is stored. -/
theorem inbound_message_processed_twice_stored_once
    (s : Stores) (received : List Message) (privateKey selfDid selfName : String)
    (m : Message) (r : WireRelay) (now1 now2 : Timestamp) (fresh1 fresh2 : Nat → String)
    (hcount : countId s.messages m.id ≤ 1)
    (hrec : ∀ x ∈ received, x.id = m.id → countId s.messages m.id = 1)
    (hrid : r.id = m.id) (hne : r.id ≠ "") :
    countId
      (processReceivedMessages
        (processReceivedMessages s received privateKey [m]).1
        (processReceivedMessages s received privateKey [m]).2 privateKey [m]).1.messages
      m.id = 1
    ∧ countId
      (processRelayItems
        (processRelayItems s received selfDid selfName privateKey now1 fresh1 0 [r]).1
        (processRelayItems s received selfDid selfName privateKey now1 fresh1 0 [r]).2
        selfDid selfName privateKey now2 fresh2 0 [r]).1.messages
      m.id = 1 := by
  constructor
  · by_cases hA : received.any (fun x => x.id = m.id) = true
    · have h1 : processReceivedMessages s received privateKey [m] = (s, received) :=
        processReceivedMessages_cons_skip s received privateKey m [] hA
      rw [h1, h1]
      obtain ⟨x, hx, hpx⟩ := List.any_eq_true.mp hA
      exact hrec x hx (by simpa using hpx)
    · have hAf : received.any (fun x => x.id = m.id) = false := Bool.eq_false_iff.mpr hA
      have h1 : processReceivedMessages s received privateKey [m]
          = (s.saveMessage { m with content := decryptMessage m.encrypted privateKey },
             received ++ [{ m with content := decryptMessage m.encrypted privateKey }]) :=
        processReceivedMessages_cons_save s received privateKey m [] hAf
      have hA2 : (received ++ [{ m with content := decryptMessage m.encrypted privateKey }]).any
          (fun x => x.id = m.id) = true :=
        List.any_eq_true.mpr ⟨{ m with content := decryptMessage m.encrypted privateKey },
          by simp, by simp⟩
      rw [h1]
      rw [processReceivedMessages_cons_skip _ _ privateKey m [] hA2]
      exact countP_putKeyed_le_one Message.id s.messages
        { m with content := decryptMessage m.encrypted privateKey } hcount
  · have hMid1 : (wireRelayToMessage r selfDid selfName privateKey now1 (fresh1 0)).id
        = m.id := by
      rw [wireRelayToMessage, if_neg hne]
      exact hrid
    have hMid2 : (wireRelayToMessage r selfDid selfName privateKey now2 (fresh2 0)).id
        = m.id := by
      rw [wireRelayToMessage, if_neg hne]
      exact hrid
    have h1 : (processRelayItems s received selfDid selfName privateKey now1 fresh1 0
        [r]).1.messages
        = putKeyed Message.id s.messages
            (wireRelayToMessage r selfDid selfName privateKey now1 (fresh1 0)) := rfl
    have hc1 : countId (processRelayItems s received selfDid selfName privateKey now1 fresh1 0
        [r]).1.messages m.id = 1 := by
      rw [h1]
      have hkey := countP_putKeyed_le_one Message.id s.messages
        (wireRelayToMessage r selfDid selfName privateKey now1 (fresh1 0))
        (by simp only [hMid1]; exact hcount)
      simp only [hMid1] at hkey
      exact hkey
    have h2 : (processRelayItems
        (processRelayItems s received selfDid selfName privateKey now1 fresh1 0 [r]).1
        (processRelayItems s received selfDid selfName privateKey now1 fresh1 0 [r]).2
        selfDid selfName privateKey now2 fresh2 0 [r]).1.messages
        = putKeyed Message.id
            (processRelayItems s received selfDid selfName privateKey now1 fresh1 0 [r]).1.messages
            (wireRelayToMessage r selfDid selfName privateKey now2 (fresh2 0)) := rfl
    rw [h2]
    have hkey := countP_putKeyed_le_one Message.id
      (processRelayItems s received selfDid selfName privateKey now1 fresh1 0 [r]).1.messages
      (wireRelayToMessage r selfDid selfName privateKey now2 (fresh2 0))
      (by simp only [hMid2]; exact le_of_eq hc1)
    simp only [hMid2] at hkey
    exact hkey

/-- Concrete inbound message used by witnesses: encrypted under a
recipient public key, ciphertext the local key cannot open. -/
def wMsg : Message :=
  { id := "m1", senderId := "did:cc:s", senderName := "Sam", recipientId := "did:cc:me",
    recipientName := "Me", content := none, encrypted := aesEncrypt "hi" (SHA256 "sk9"),
    timestamp := ⟨2025, 4⟩, status := "sent", isRelay := false }

/-- The same item carried as a relay payload. -/
def wWire : WireRelay :=
  { id := "m1", senderId := "did:cc:s", senderName := "Sam",
    encrypted := aesEncrypt "hi" (SHA256 "sk9"), timestamp := some ⟨2025, 4⟩ }

/-- Witness for C5 on empty stores: the same id processed twice through
the messages path and twice through the relays path, one record each. -/
theorem inbound_message_processed_twice_stored_once_witness :
    countId
      (processReceivedMessages
        (processReceivedMessages ⟨[], [], []⟩ [] "pk" [wMsg]).1
        (processReceivedMessages ⟨[], [], []⟩ [] "pk" [wMsg]).2 "pk" [wMsg]).1.messages
      wMsg.id = 1
    ∧ countId
      (processRelayItems
        (processRelayItems ⟨[], [], []⟩ [] "did:cc:me" "Me M" "pk" ⟨2025, 0⟩
          (fun _ => "u1") 0 [wWire]).1
        (processRelayItems ⟨[], [], []⟩ [] "did:cc:me" "Me M" "pk" ⟨2025, 0⟩
          (fun _ => "u1") 0 [wWire]).2
        "did:cc:me" "Me M" "pk" ⟨2025, 1⟩ (fun _ => "u2") 0 [wWire]).1.messages
      wMsg.id = 1 :=
  inbound_message_processed_twice_stored_once ⟨[], [], []⟩ [] "pk" "did:cc:me" "Me M"
    wMsg wWire ⟨2025, 0⟩ ⟨2025, 1⟩ (fun _ => "u1") (fun _ => "u2")
    (by decide) (by decide) rfl (by decide)

/-! ## Claim C6 -/

/-- Concrete inbound message whose ciphertext the local private key
localPrivateKey cannot open (it was encrypted under an unrelated
key), used to exhibit the fate of an undecryptable item. -/
def cexMessage : Message :=
  { id := "mX", senderId := "did:cc:s", senderName := "Sam", recipientId := "did:cc:me",
    recipientName := "Me", content := none,
    encrypted := aesEncrypt "secret" "unrelatedKey",
    timestamp := ⟨2025, 0⟩, status := "sent", isRelay := false }

/-- Counterexample for C6: the claim states that an item whose ciphertext
fails to decrypt is skipped and not persisted as a received Message.
On the code, decryption of cexMessage under localPrivateKey fails
(returns none), yet processing the batch persists the item anyway: one
record with its id — content null — ends up in the messages store. -/
theorem undecryptable_item_persisted_cex :
    decryptMessage cexMessage.encrypted "localPrivateKey" = none
    ∧ countId (processReceivedMessages ⟨[], [], []⟩ [] "localPrivateKey"
        [cexMessage]).1.messages cexMessage.id = 1
    ∧ { cexMessage with content := none }
        ∈ (processReceivedMessages ⟨[], [], []⟩ [] "localPrivateKey"
            [cexMessage]).1.messages := by
  refine ⟨rfl, ?_, ?_⟩ <;> decide

/-- C6 as amended: a per-item decryption failure never aborts the
exchange — every item of the batch is still processed (the loops are
total and never throw) — but the failed item is not skipped: it is
persisted as a received Message whose content is the decryption
result, that is, null for a failed item.  This holds for items in a
messages batch (when their ids are new to the received list) and for
items carried in a relays batch alike. -/
theorem decryption_failure_isolated (s : Stores) (received : List Message)
    (privateKey selfDid selfName : String) (now : Timestamp) (fresh : Nat → String)
    (batch : List Message) (items : List WireRelay)
    (hnodupB : (batch.map Message.id).Nodup)
    (hfreshB : ∀ m ∈ batch, ∀ x ∈ received, x.id ≠ m.id)
    (hnodupR : (items.map WireRelay.id).Nodup)
    (hneR : ∀ r ∈ items, r.id ≠ "") :
    (∀ m ∈ batch,
      ∃ m2 ∈ (processReceivedMessages s received privateKey batch).1.messages,
        m2.id = m.id ∧ m2.content = decryptMessage m.encrypted privateKey)
    ∧ (∀ r ∈ items,
      ∃ m2 ∈ (processRelayItems s received selfDid selfName privateKey now
          fresh 0 items).1.messages,
        m2.id = r.id ∧ m2.content = decryptMessage r.encrypted privateKey) := by
  constructor
  · induction batch generalizing s received with
    | nil => intro m hm; cases hm
    | cons a rest ih =>
      intro m hm
      rw [List.map_cons, List.nodup_cons] at hnodupB
      obtain ⟨hhead, htail⟩ := hnodupB
      have hAf : received.any (fun x => x.id = a.id) = false := by
        rw [List.any_eq_false]
        intro x hx
        simpa using hfreshB a (List.mem_cons_self a rest) x hx
      rw [processReceivedMessages_cons_save s received privateKey a rest hAf]
      rcases List.mem_cons.mp hm with rfl | hmrest
      · refine ⟨{ m with content := decryptMessage m.encrypted privateKey }, ?_, rfl, rfl⟩
        apply processReceivedMessages_preserves
        · show _ ∈ putKeyed Message.id s.messages _
          exact mem_putKeyed_self Message.id s.messages _
        · intro x hx
          show x.id ≠ _
          intro hcontra
          exact hhead (by rw [← hcontra]; exact List.mem_map_of_mem _ hx)
      · refine ih _ _ htail ?_ m hmrest
        intro m0 hm0 x hx
        rcases List.mem_append.mp hx with hxr | hxnew
        · exact hfreshB m0 (List.mem_cons_of_mem a hm0) x hxr
        · have hxa : x = { a with content := decryptMessage a.encrypted privateKey } := by
            simpa using hxnew
          subst hxa
          show a.id ≠ m0.id
          intro hcontra
          exact hhead (by rw [hcontra]; exact List.mem_map_of_mem _ hm0)
  · have haux : ∀ (items2 : List WireRelay) (s2 : Stores) (received2 : List Message) (k : Nat),
        (items2.map WireRelay.id).Nodup → (∀ r ∈ items2, r.id ≠ "") →
        ∀ r ∈ items2,
          ∃ m2 ∈ (processRelayItems s2 received2 selfDid selfName privateKey now
              fresh k items2).1.messages,
            m2.id = r.id ∧ m2.content = decryptMessage r.encrypted privateKey := by
      intro items2
      induction items2 with
      | nil => intro s2 received2 k _ _ r hr; cases hr
      | cons a rest ih =>
        intro s2 received2 k hnodup hne r hr
        rw [List.map_cons, List.nodup_cons] at hnodup
        obtain ⟨hhead, htail⟩ := hnodup
        have haid : (wireRelayToMessage a selfDid selfName privateKey now (fresh k)).id
            = a.id := by
          rw [wireRelayToMessage, if_neg (hne a (List.mem_cons_self a rest))]
        show ∃ m2 ∈ (processRelayItems
            (s2.saveMessage (wireRelayToMessage a selfDid selfName privateKey now (fresh k)))
            (received2 ++ [wireRelayToMessage a selfDid selfName privateKey now (fresh k)])
            selfDid selfName privateKey now fresh (k + 1) rest).1.messages, _
        rcases List.mem_cons.mp hr with rfl | hrrest
        · refine ⟨wireRelayToMessage r selfDid selfName privateKey now (fresh k), ?_, haid, rfl⟩
          apply processRelayItems_preserves
          · show _ ∈ putKeyed Message.id s2.messages _
            exact mem_putKeyed_self Message.id s2.messages _
          · intro x hx
            rw [haid]
            intro hcontra
            exact hhead (by rw [← hcontra]; exact List.mem_map_of_mem _ hx)
          · exact fun x hx => hne x (List.mem_cons_of_mem r hx)
        · exact ih _ _ (k + 1) htail (fun x hx => hne x (List.mem_cons_of_mem a hx)) r hrrest
    exact haux items s received 0 hnodupR hneR

/-- Concrete inbound message the local key localPrivateKey can open. -/
def wGood : Message :=
  { id := "mY", senderId := "did:cc:t", senderName := "Tia", recipientId := "did:cc:me",
    recipientName := "Me", content := none,
    encrypted := aesEncrypt "readable" "localPrivateKey",
    timestamp := ⟨2025, 1⟩, status := "sent", isRelay := false }

/-- Witness for the amended C6 at a concrete batch holding one
undecryptable item and one decryptable item, and one relay item:
every item is persisted with its own decryption result as content. -/
theorem decryption_failure_isolated_witness :
    (∀ m ∈ [cexMessage, wGood],
      ∃ m2 ∈ (processReceivedMessages ⟨[], [], []⟩ [] "localPrivateKey"
          [cexMessage, wGood]).1.messages,
        m2.id = m.id ∧ m2.content = decryptMessage m.encrypted "localPrivateKey")
    ∧ (∀ r ∈ [wWire],
      ∃ m2 ∈ (processRelayItems ⟨[], [], []⟩ [] "did:cc:me" "Me M" "localPrivateKey"
          ⟨2025, 2⟩ (fun _ => "u3") 0 [wWire]).1.messages,
        m2.id = r.id ∧ m2.content = decryptMessage r.encrypted "localPrivateKey") :=
  decryption_failure_isolated ⟨[], [], []⟩ [] "localPrivateKey" "did:cc:me" "Me M"
    ⟨2025, 2⟩ (fun _ => "u3") [cexMessage, wGood] [wWire]
    (by decide) (by decide) (by decide) (by decide)

end CC
